import Mathlib

/-!
Shallow embedding of `src/military_db.py`: an in-memory record table backed by a
pandas `DataFrame` whose columns are `(category, subcategory)` string pairs.
The embedding models the pandas operations the program relies on:

* `df[(c, s)] = default` — scalar column assignment: broadcasts the scalar to
  every existing row; overwrites in place if the key exists, else appends the
  column at the end;
* `pd.concat([df, pd.DataFrame([data])], ignore_index=True)` — row append:
  the column set becomes the union in order of first appearance, missing cells
  become NaN;
* `df[df[col] == value]` — boolean-mask filtering: NaN compares unequal to
  everything, strings compare exactly, and datetime cells coerce the comparison
  string to a timestamp;
* `Series.value_counts()` — counts of distinct non-NaN values in descending
  frequency order, ties in first-appearance order.

Cells are `Option Value` where `none` models NaN/absence; timestamps live at day
granularity (days since 1970-01-01), the granularity of every date in the
program.
-/

namespace MilDB

/-- A column key: a `(category, subcategory)` pair of strings. -/
abbrev Key := String × String

/-- A scalar value stored in a cell: the program stores strings, the derived
integer age column, and pandas timestamps (modelled as days since 1970-01-01). -/
inductive Value where
  | str : String → Value
  | int : Int → Value
  | date : Int → Value
deriving DecidableEq, Repr

/-- A cell of the table: `none` models pandas NaN / Python `None` / absence. -/
abbrev Cell := Option Value

/-- The `DataFrame` held by `MilitaryDB`: an ordered list of column keys and an
ordered list of records, each record a list of cells positionally aligned with
the columns. -/
structure DF where
  cols : List Key
  recs : List (List Cell)
deriving DecidableEq, Repr

/-- Well-formedness: every record has one cell per column. Every `DataFrame`
reachable in the program satisfies this. -/
def DF.WF (df : DF) : Prop := ∀ r ∈ df.recs, r.length = df.cols.length

/-- Reading a record's cell at a column key: the cell paired with the first
occurrence of the key, `none` (absent) if the key is not a column. -/
def getCell (cols : List Key) (r : List Cell) (k : Key) : Cell :=
  match (cols.zip r).find? (fun p => p.1 == k) with
  | some p => p.2
  | none => none

/-- Whether a year is a leap year (Gregorian calendar). -/
def isLeap (y : Nat) : Bool := (y % 4 == 0 && y % 100 != 0) || (y % 400 == 0)

/-- Number of days in a month of a given year. -/
def daysInMonth (y m : Nat) : Nat :=
  if m == 2 then (if isLeap y then 29 else 28)
  else if m == 4 || m == 6 || m == 9 || m == 11 then 30
  else 31

/-- Days from 1970-01-01 to the civil date `y-m-d` (standard civil-calendar
day-number computation; all dates in the program are well after year 1). -/
def daysFromCivil (y m d : Nat) : Int :=
  let yi : Int := (y : Int) - (if m ≤ 2 then 1 else 0)
  let era : Int := (if 0 ≤ yi then yi else yi - 399) / 400
  let yoe : Int := yi - era * 400
  let doy : Int := (153 * ((m : Int) + (if 2 < m then -3 else 9)) + 2) / 5 + (d : Int) - 1
  let doe : Int := yoe * 365 + yoe / 4 - yoe / 100 + doy
  era * 146097 + doe - 719468

/-- Decimal value of a digit character. -/
def digitVal (c : Char) : Nat := c.toNat - 48

/-- Models the datetime-string parsing pandas performs (`pd.to_datetime`, and
the coercion of strings inside datetime comparisons) on the only format this
repository uses: strict ISO `YYYY-MM-DD`. A parseable date becomes its day
number since 1970-01-01; any other string is unparseable, and comparisons
against it are false. -/
def parseDate (s : String) : Option Int :=
  match s.toList with
  | [y1, y2, y3, y4, sep1, m1, m2, sep2, d1, d2] =>
    if sep1 == '-' && sep2 == '-' &&
        [y1, y2, y3, y4, m1, m2, d1, d2].all Char.isDigit then
      let y := ((digitVal y1 * 10 + digitVal y2) * 10 + digitVal y3) * 10 + digitVal y4
      let m := digitVal m1 * 10 + digitVal m2
      let d := digitVal d1 * 10 + digitVal d2
      if 1 ≤ m && m ≤ 12 && 1 ≤ d && d ≤ daysInMonth y m then
        some (daysFromCivil y m d)
      else none
    else none
  | _ => none

/-- The pandas elementwise comparison `df[col] == value` for a prompted string
`value`, at one cell: NaN is unequal to everything (absent never matches);
string cells compare by exact string equality (no case folding, no substring
matching); integer cells never equal a string; datetime cells compare by
coercing the string to a timestamp (false when it does not parse). -/
def cellEq (cell : Cell) (v : String) : Bool :=
  match cell with
  | none => false
  | some (.str s) => s == v
  | some (.int _) => false
  | some (.date d) => parseDate v == some d

/-- Source `MilitaryDB.add_column`: `self.df[(category, subcategory)] = default`.
Pandas assigns the scalar `default` to every existing row; a new key is
appended at the end of the column order, an existing key is overwritten in
place (every occurrence, position unchanged). -/
def DF.add_column (df : DF) (category subcategory : String) (default : Cell) : DF :=
  let k : Key := (category, subcategory)
  if k ∈ df.cols then
    { cols := df.cols,
      recs := df.recs.map (fun r =>
        (df.cols.zip r).map (fun p => if p.1 = k then default else p.2)) }
  else
    { cols := df.cols ++ [k], recs := df.recs.map (fun r => r ++ [default]) }

/-- Looking a key up in the dict passed to `add_record` (`data` models a Python
dict, so its keys are distinct): the associated cell, or `none` if missing. -/
def lookupCell (data : List (Key × Cell)) (k : Key) : Cell :=
  match data.find? (fun p => p.1 == k) with
  | some p => p.2
  | none => none

/-- Source `MilitaryDB.add_record`: `pd.concat([self.df, pd.DataFrame([data])],
ignore_index=True)`. The resulting columns are the union in order of first
appearance: the existing columns, then the record's keys not already present,
in their order. Existing records read NaN on the new columns; the new record
reads NaN on every column its dict does not mention. -/
def DF.add_record (df : DF) (data : List (Key × Cell)) : DF :=
  let newKeys := (data.map Prod.fst).filter (fun k => decide (k ∉ df.cols))
  let cols' := df.cols ++ newKeys
  { cols := cols',
    recs := df.recs.map (fun r => r ++ newKeys.map (fun _ => (none : Cell)))
      ++ [cols'.map (fun k => lookupCell data k)] }

/-- The failure outcome of a query on an unknown column (the program reports
"Такого столбца нет" and renders no table / saves no chart). -/
inductive DBError where
  | columnNotFound
deriving DecidableEq, Repr

deriving instance DecidableEq for Except

/-- Core of `MilitaryDB.filter_interactive` after the three prompts: if the
`(cat, sub)` key is a column, the records selected by the boolean mask
`self.df[col] == value`, in original order; otherwise the column-not-found
outcome. -/
def DF.filter (df : DF) (cat sub value : String) : Except DBError (List (List Cell)) :=
  let col : Key := (cat, sub)
  if col ∈ df.cols then
    .ok (df.recs.filter (fun r => cellEq (getCell df.cols r col) value))
  else
    .error .columnNotFound

/-- The method `filter_interactive` as a state transition on `self.df`: the method body
only reads `self.df` (mask selection builds a new frame for display), so both
branches leave the stored table as it was. -/
def DF.filter_run (df : DF) (cat sub value : String) :
    DF × Except DBError (List (List Cell)) :=
  let col : Key := (cat, sub)
  if col ∈ df.cols then
    (df, .ok (df.recs.filter (fun r => cellEq (getCell df.cols r col) value)))
  else
    (df, .error .columnNotFound)

/-- The distinct non-NaN values of a column in order of first appearance. -/
def uniqueValues (cells : List Cell) : List Value :=
  cells.foldl (fun acc c =>
    match c with
    | none => acc
    | some v => if v ∈ acc then acc else acc ++ [v]) []

/-- Stable insertion into a descending-by-count list: the new group goes after
every group with at least its count (ties keep the earlier group first). -/
def insertDesc (p : Value × Nat) : List (Value × Nat) → List (Value × Nat)
  | [] => [p]
  | q :: rest => if q.2 < p.2 then p :: q :: rest else q :: insertDesc p rest

/-- Stable descending-by-count sort (insertion sort, processing groups in their
given order so that ties keep that order). -/
def sortDesc (l : List (Value × Nat)) : List (Value × Nat) :=
  l.foldl (fun acc p => insertDesc p acc) []

/-- Models `Series.value_counts()`: one group per distinct non-NaN value with
its number of occurrences, in descending count order, ties in order of first
appearance; NaN cells are excluded (`dropna` defaults to true). -/
def value_counts (cells : List Cell) : List (Value × Nat) :=
  sortDesc ((uniqueValues cells).map (fun v => (v, cells.count (some v))))

/-- The cells of one column, in record order. -/
def DF.colCells (df : DF) (k : Key) : List Cell :=
  df.recs.map (fun r => getCell df.cols r k)

/-- Core of `MilitaryDB.plot_counts`: on an unknown key the column-not-found
outcome (no chart is produced); otherwise the value counts of the column, the
ordered data the bar chart renders. Writing the image file is I/O outside the
core. -/
def DF.count_by_column (df : DF) (category subcategory : String) :
    Except DBError (List (Value × Nat)) :=
  let col : Key := (category, subcategory)
  if col ∈ df.cols then .ok (value_counts (df.colCells col))
  else .error .columnNotFound

/-- The method `plot_counts` as a state transition on `self.df`: both branches only read
the table. -/
def DF.plot_run (df : DF) (category subcategory : String) :
    DF × Except DBError (List (Value × Nat)) :=
  let col : Key := (category, subcategory)
  if col ∈ df.cols then (df, .ok (value_counts (df.colCells col)))
  else (df, .error .columnNotFound)

/-- Source `MilitaryDB.add_column_interactive` after the prompts: the prompted default
goes through `default or None`, so empty input becomes `None` (absent) before
`add_column` is called; nonempty input is passed as the string itself. -/
def DF.add_column_interactive (df : DF) (cat sub definput : String) : DF :=
  df.add_column cat sub (if definput == "" then none else some (.str definput))

/-- The column keys of the seed `DataFrame` built by `pd.DataFrame(data)` in
`load_default_data`: the keys of the three dicts, in their (shared) order of
first appearance. -/
def seedCols : List Key :=
  [("Служба", "Боевая часть"), ("Персональные данные", "ФИО"),
   ("Служба", "Должность"), ("Персональные данные", "Дата рождения"),
   ("Финансы", "Ипотека")]

/-- The three seed records of `load_default_data`, as entered (all strings),
aligned with `seedCols`. -/
def seedRows : List (List Cell) :=
  [[some (.str "Первый батальон"), some (.str "Иванов Иван Иванович"),
    some (.str "Сержант"), some (.str "1990-05-20"), some (.str "Да")],
   [some (.str "Второй батальон"), some (.str "Петров Петр Петрович"),
    some (.str "Лейтенант"), some (.str "1988-11-02"), some (.str "Нет")],
   [some (.str "Первый батальон"), some (.str "Сидоров Сидор Сидорович"),
    some (.str "Капитан"), some (.str "1985-03-15"), some (.str "Да")]]

/-- Overwriting the cells of one column in place by a per-row function, the
effect of assigning a converted/derived series to an existing column key. -/
def mapAtKey (cols : List Key) (k : Key) (f : Cell → Cell) (r : List Cell) :
    List Cell :=
  (cols.zip r).map (fun p => if p.1 = k then f p.2 else p.2)

/-- Models `pd.to_datetime` on one cell of the birth-date column: an ISO date
string becomes a timestamp. -/
def toDatetimeCell (c : Cell) : Cell :=
  match c with
  | some (.str s) => (parseDate s).map .date
  | c => c

/-- The derived age cell of one record: `(today - birthdate).days // 365`
(Python floor division), NaN if the birth cell is not a timestamp. -/
def ageCell (today : Int) (c : Cell) : Cell :=
  match c with
  | some (.date d) => some (.int (Int.fdiv (today - d) 365))
  | _ => none

/-- The key of the birth-date column. -/
def birthKey : Key := ("Персональные данные", "Дата рождения")

/-- The key of the derived age column. -/
def ageKey : Key := ("Персональные данные", "Возраст")

/-- Source `load_default_data`: builds the seed frame from the three dicts, converts
the birth-date column to timestamps in place, then assigns the derived age
series to the new key `("Персональные данные", "Возраст")`, which appends it as
the last column with a per-row value. `today` is the day number of
`pd.Timestamp.today().normalize()`. -/
def load_default_data (today : Int) : DF :=
  let df1 : DF :=
    { cols := seedCols, recs := seedRows.map (mapAtKey seedCols birthKey toDatetimeCell) }
  { cols := df1.cols ++ [ageKey],
    recs := df1.recs.map (fun r => r ++ [ageCell today (getCell df1.cols r birthKey)]) }

/-! ### Helper lemmas about cell lookup -/

theorem find?_zip_eq_none {cols : List Key} {r : List Cell} {k : Key}
    (h : k ∉ cols) : (cols.zip r).find? (fun p => p.1 == k) = none := by
  apply List.find?_eq_none.mpr
  rintro ⟨a, b⟩ hp
  simp only [beq_iff_eq]
  rintro rfl
  exact h (List.of_mem_zip hp).1

theorem getCell_of_not_mem {cols : List Key} {r : List Cell} {k : Key}
    (h : k ∉ cols) : getCell cols r k = none := by
  unfold getCell
  rw [find?_zip_eq_none h]

theorem getCell_append {cols cols₂ : List Key} {r r₂ : List Cell} {k : Key}
    (hlen : r.length = cols.length) (h : k ∉ cols) :
    getCell (cols ++ cols₂) (r ++ r₂) k = getCell cols₂ r₂ k := by
  unfold getCell
  rw [List.zip_append hlen.symm, List.find?_append, find?_zip_eq_none h,
    Option.none_or]

theorem getCell_map_self {cols : List Key} {k : Key} (f : Key → Cell)
    (h : k ∈ cols) : getCell cols (cols.map f) k = f k := by
  induction cols with
  | nil => cases h
  | cons a t ih =>
    by_cases hak : a = k
    · subst hak
      simp [getCell, List.find?]
    · have hk : k ∈ t := (List.mem_cons.mp h).resolve_left (fun hh => hak hh.symm)
      have step : getCell (a :: t) ((a :: t).map f) k = getCell t (t.map f) k := by
        simp [getCell, List.find?_cons, hak]
      rw [step]
      exact ih hk

theorem getCell_overwrite {cols : List Key} {r : List Cell} {k : Key} {d : Cell}
    (hmem : k ∈ cols) (hlen : r.length = cols.length) :
    getCell cols ((cols.zip r).map (fun p => if p.1 = k then d else p.2)) k = d := by
  induction cols generalizing r with
  | nil => cases hmem
  | cons a t ih =>
    cases r with
    | nil => simp at hlen
    | cons c rt =>
      by_cases hak : a = k
      · subst hak
        simp [getCell, List.find?]
      · have hk : k ∈ t := (List.mem_cons.mp hmem).resolve_left (fun hh => hak hh.symm)
        have hlen' : rt.length = t.length := by simpa using hlen
        have step :
            getCell (a :: t)
              (((a :: t).zip (c :: rt)).map (fun p => if p.1 = k then d else p.2)) k =
            getCell t ((t.zip rt).map (fun p => if p.1 = k then d else p.2)) k := by
          simp [getCell, List.find?_cons, hak]
        rw [step]
        exact ih hk hlen'

theorem WF_add_column {df : DF} (h : df.WF) (c s : String) (d : Cell) :
    (df.add_column c s d).WF := by
  unfold DF.add_column
  by_cases hk : ((c, s) : Key) ∈ df.cols
  · simp only [if_pos hk]
    intro r hr
    rcases List.mem_map.mp hr with ⟨r₀, hr₀, rfl⟩
    simp [List.length_zip, h r₀ hr₀]
  · simp only [if_neg hk]
    intro r hr
    rcases List.mem_map.mp hr with ⟨r₀, hr₀, rfl⟩
    simp [h r₀ hr₀]

/-! ### Helper lemmas about the stable descending sort of `value_counts` -/

theorem insertDesc_perm (p : Value × Nat) (l : List (Value × Nat)) :
    List.Perm (insertDesc p l) (p :: l) := by
  induction l with
  | nil => rfl
  | cons q rest ih =>
    unfold insertDesc
    by_cases h : q.2 < p.2
    · rw [if_pos h]
    · rw [if_neg h]
      exact (ih.cons q).trans (List.Perm.swap p q rest)

theorem sortDesc_perm_aux (l acc : List (Value × Nat)) :
    List.Perm (l.foldl (fun acc p => insertDesc p acc) acc) (acc ++ l) := by
  induction l generalizing acc with
  | nil => simp
  | cons p t ih =>
    have h1 : List.Perm (t.foldl (fun acc p => insertDesc p acc) (insertDesc p acc))
        (insertDesc p acc ++ t) := ih (insertDesc p acc)
    have h2 : List.Perm (insertDesc p acc ++ t) ((p :: acc) ++ t) :=
      (insertDesc_perm p acc).append_right t
    have h3 : List.Perm ((p :: acc) ++ t) (acc ++ p :: t) := List.perm_middle.symm
    exact (h1.trans h2).trans h3

theorem sortDesc_perm (l : List (Value × Nat)) : List.Perm (sortDesc l) l := by
  simpa using sortDesc_perm_aux l []

theorem insertDesc_sorted {p : Value × Nat} {l : List (Value × Nat)}
    (h : l.Pairwise (fun a b => b.2 ≤ a.2)) :
    (insertDesc p l).Pairwise (fun a b => b.2 ≤ a.2) := by
  induction l with
  | nil => simp [insertDesc]
  | cons q rest ih =>
    rcases List.pairwise_cons.mp h with ⟨hq, hrest⟩
    unfold insertDesc
    by_cases hlt : q.2 < p.2
    · rw [if_pos hlt]
      refine List.pairwise_cons.mpr ⟨?_, h⟩
      intro b hb
      rcases List.mem_cons.mp hb with rfl | hb'
      · exact le_of_lt hlt
      · exact le_trans (hq b hb') (le_of_lt hlt)
    · rw [if_neg hlt]
      refine List.pairwise_cons.mpr ⟨?_, ih hrest⟩
      intro b hb
      rcases List.mem_cons.mp ((insertDesc_perm p rest).mem_iff.mp hb) with rfl | hb'
      · exact le_of_not_lt hlt
      · exact hq b hb'

theorem sortDesc_sorted_aux (l acc : List (Value × Nat))
    (hacc : acc.Pairwise (fun a b => b.2 ≤ a.2)) :
    (l.foldl (fun acc p => insertDesc p acc) acc).Pairwise (fun a b => b.2 ≤ a.2) := by
  induction l generalizing acc with
  | nil => exact hacc
  | cons p t ih => exact ih (insertDesc p acc) (insertDesc_sorted hacc)

theorem sortDesc_sorted (l : List (Value × Nat)) :
    (sortDesc l).Pairwise (fun a b => b.2 ≤ a.2) :=
  sortDesc_sorted_aux l [] (List.Pairwise.nil)

theorem filter_insertDesc {p : Value × Nat} {l : List (Value × Nat)} (n : Nat)
    (hs : l.Pairwise (fun a b => b.2 ≤ a.2)) :
    (insertDesc p l).filter (fun q => q.2 == n) =
      (if p.2 == n then l.filter (fun q => q.2 == n) ++ [p]
       else l.filter (fun q => q.2 == n)) := by
  induction l with
  | nil =>
    unfold insertDesc
    by_cases hp : p.2 == n
    · simp [hp]
    · simp [hp]
  | cons q rest ih =>
    rcases List.pairwise_cons.mp hs with ⟨hq, hrest⟩
    unfold insertDesc
    by_cases hlt : q.2 < p.2
    · rw [if_pos hlt]
      by_cases hp : p.2 = n
      · have hnone : (q :: rest).filter (fun q => q.2 == n) = [] := by
          apply List.filter_eq_nil_iff.mpr
          intro b hb
          have hble : b.2 ≤ q.2 := by
            rcases List.mem_cons.mp hb with rfl | hb'
            · exact le_refl _
            · exact hq b hb'
          have : b.2 < n := lt_of_le_of_lt hble (hp ▸ hlt)
          simp [Nat.ne_of_lt this]
        rw [List.filter_cons_of_pos (by simp [hp]), hnone]
        simp [hp]
      · rw [List.filter_cons_of_neg (by simp [hp])]
        simp [hp]
    · rw [if_neg hlt]
      by_cases hqn : q.2 = n
      · rw [List.filter_cons_of_pos (by simp [hqn]),
          List.filter_cons_of_pos (by simp [hqn]), ih hrest]
        by_cases hp : p.2 = n
        · simp [hp]
        · simp [hp]
      · rw [List.filter_cons_of_neg (by simp [hqn]),
          List.filter_cons_of_neg (by simp [hqn]), ih hrest]

theorem filter_sortDesc_aux (l acc : List (Value × Nat)) (n : Nat)
    (hacc : acc.Pairwise (fun a b => b.2 ≤ a.2)) :
    (l.foldl (fun acc p => insertDesc p acc) acc).filter (fun q => q.2 == n) =
      acc.filter (fun q => q.2 == n) ++ l.filter (fun q => q.2 == n) := by
  induction l generalizing acc with
  | nil => simp
  | cons p t ih =>
    have step := ih (insertDesc p acc) (insertDesc_sorted hacc)
    have hfoldl : ((p :: t).foldl (fun acc p => insertDesc p acc) acc) =
        t.foldl (fun acc p => insertDesc p acc) (insertDesc p acc) := rfl
    rw [hfoldl, step, filter_insertDesc n hacc]
    by_cases hp : p.2 = n
    · rw [List.filter_cons_of_pos (by simp [hp])]
      simp [hp]
    · rw [List.filter_cons_of_neg (by simp [hp])]
      simp [hp]

/-- Stability of the `value_counts` ordering: restricted to any one count, the
sorted groups appear exactly in their original (first-appearance) order. -/
theorem filter_sortDesc (l : List (Value × Nat)) (n : Nat) :
    (sortDesc l).filter (fun q => q.2 == n) = l.filter (fun q => q.2 == n) := by
  simpa using filter_sortDesc_aux l [] n List.Pairwise.nil

theorem mem_uniqueValues_aux (cells : List Cell) (acc : List Value) (v : Value) :
    v ∈ cells.foldl (fun acc c =>
        match c with
        | none => acc
        | some w => if w ∈ acc then acc else acc ++ [w]) acc ↔
      v ∈ acc ∨ some v ∈ cells := by
  induction cells generalizing acc with
  | nil => simp
  | cons c t ih =>
    cases c with
    | none => simpa using ih acc
    | some w =>
      by_cases hw : w ∈ acc
      · rw [List.foldl_cons]
        simp only [hw, if_true]
        rw [ih acc]
        constructor
        · rintro (h1 | h2)
          · exact Or.inl h1
          · exact Or.inr (List.mem_cons_of_mem _ h2)
        · rintro (h1 | h2)
          · exact Or.inl h1
          · rcases List.mem_cons.mp h2 with heq | h3
            · exact Or.inl (by rwa [Option.some_inj.mp heq.symm] at hw)
            · exact Or.inr h3
      · rw [List.foldl_cons]
        simp only [hw, if_false]
        rw [ih (acc ++ [w])]
        simp only [List.mem_append, List.mem_singleton, List.mem_cons]
        constructor
        · rintro ((h1 | h1) | h2)
          · exact Or.inl h1
          · rcases h1 with rfl | h0
            · exact Or.inr (Or.inl rfl)
            · cases h0
          · exact Or.inr (Or.inr h2)
        · rintro (h1 | h2 | h3)
          · exact Or.inl (Or.inl h1)
          · exact Or.inl (Or.inr (Or.inl (Option.some_inj.mp h2)))
          · exact Or.inr h3

/-- A value is a `value_counts` group precisely when it actually occurs in the
column: absent (NaN) cells never form a group. -/
theorem mem_uniqueValues (cells : List Cell) (v : Value) :
    v ∈ uniqueValues cells ↔ some v ∈ cells := by
  unfold uniqueValues
  rw [mem_uniqueValues_aux]
  simp

/-- Adding a fresh column with default `d` makes every existing record read `d`
at the new key (the broadcast of the scalar assignment). -/
theorem getCell_add_column_fresh {df : DF} {c s : String} {d : Cell}
    (hwf : df.WF) (hfresh : ((c, s) : Key) ∉ df.cols) :
    ∀ r' ∈ (df.add_column c s d).recs,
      getCell (df.add_column c s d).cols r' ((c, s) : Key) = d := by
  intro r' hr'
  simp only [DF.add_column, if_neg hfresh] at hr' ⊢
  rcases List.mem_map.mp hr' with ⟨r, hr, rfl⟩
  rw [getCell_append (hwf r hr) hfresh]
  simp [getCell, List.find?]

/-! ### Claim theorems -/

/-- C1 (default broadcast): after `add_column(c, s, d)` with a fresh key, the
records are exactly the prior records extended by the broadcast default, so
every record that existed before the call reads back `d` at `(c, s)` (with a
fresh key no prior record could have supplied the key explicitly); and a record
added afterwards by `add_record` whose dict does not mention `(c, s)` reads
back absent (`none`), not `d`. -/
theorem C1_default_broadcast (df : DF) (c s : String) (d : Cell)
    (data : List (Key × Cell)) (hwf : df.WF) (hfresh : ((c, s) : Key) ∉ df.cols)
    (hdata : ∀ p ∈ data, p.1 ≠ ((c, s) : Key)) :
    (df.add_column c s d).recs = df.recs.map (fun r => r ++ [d]) ∧
    (∀ r' ∈ (df.add_column c s d).recs,
      getCell (df.add_column c s d).cols r' ((c, s) : Key) = d) ∧
    getCell ((df.add_column c s d).add_record data).cols
      (((df.add_column c s d).add_record data).recs.getLastD [])
      ((c, s) : Key) = none := by
  refine ⟨?_, getCell_add_column_fresh hwf hfresh, ?_⟩
  · simp only [DF.add_column, if_neg hfresh]
  · have hkmem : ((c, s) : Key) ∈ (df.add_column c s d).cols := by
      simp only [DF.add_column, if_neg hfresh]
      simp
    have hnone : data.find? (fun p => p.1 == ((c, s) : Key)) = none :=
      List.find?_eq_none.mpr (fun p hp => by simpa using hdata p hp)
    simp only [DF.add_record]
    rw [List.getLastD_concat]
    rw [getCell_map_self _ (List.mem_append_left _ hkmem)]
    unfold lookupCell
    rw [hnone]

/-- Witness for C1: a one-record one-column table, a fresh column with default
"v", then a record supplying only the original column. -/
theorem C1_default_broadcast_witness :
    ((DF.mk [("a", "b")] [[some (.str "x")]]).add_column "c" "d"
        (some (.str "v"))).recs
        = [[some (.str "x")]].map (fun r => r ++ [some (.str "v")]) ∧
    (∀ r' ∈ ((DF.mk [("a", "b")] [[some (.str "x")]]).add_column "c" "d"
        (some (.str "v"))).recs,
      getCell ((DF.mk [("a", "b")] [[some (.str "x")]]).add_column "c" "d"
        (some (.str "v"))).cols r' (("c", "d") : Key) = some (.str "v")) ∧
    getCell (((DF.mk [("a", "b")] [[some (.str "x")]]).add_column "c" "d"
        (some (.str "v"))).add_record [(("a", "b"), some (.str "y"))]).cols
      ((((DF.mk [("a", "b")] [[some (.str "x")]]).add_column "c" "d"
        (some (.str "v"))).add_record [(("a", "b"), some (.str "y"))]).recs.getLastD [])
      (("c", "d") : Key) = none :=
  C1_default_broadcast (DF.mk [("a", "b")] [[some (.str "x")]]) "c" "d"
    (some (.str "v")) [(("a", "b"), some (.str "y"))]
    (by unfold DF.WF; decide) (by decide) (by decide)

/-- C10 (re-adding a column clobbers all rows): calling `add_column(c, s, d)`
with an existing key leaves the column order unchanged (the column keeps its
position) and overwrites the stored value at `(c, s)` with `d` in every
record, including records that had explicitly supplied a different value. -/
theorem C10_readd_column_clobbers (df : DF) (c s : String) (d : Cell)
    (hwf : df.WF) (hmem : ((c, s) : Key) ∈ df.cols) :
    (df.add_column c s d).cols = df.cols ∧
    (df.add_column c s d).recs.length = df.recs.length ∧
    ∀ r' ∈ (df.add_column c s d).recs,
      getCell (df.add_column c s d).cols r' ((c, s) : Key) = d := by
  refine ⟨?_, ?_, ?_⟩
  · simp only [DF.add_column, if_pos hmem]
  · simp only [DF.add_column, if_pos hmem]
    simp
  · intro r' hr'
    simp only [DF.add_column, if_pos hmem] at hr' ⊢
    rcases List.mem_map.mp hr' with ⟨r, hr, rfl⟩
    exact getCell_overwrite hmem (hwf r hr)

/-- Witness for C10: re-adding the only column of a one-record table with a new
default overwrites the record's explicitly supplied value. -/
theorem C10_readd_column_clobbers_witness :
    ((DF.mk [("a", "b")] [[some (.str "x")]]).add_column "a" "b"
        (some (.str "v"))).cols = [("a", "b")] ∧
    ((DF.mk [("a", "b")] [[some (.str "x")]]).add_column "a" "b"
        (some (.str "v"))).recs.length
        = (DF.mk [("a", "b")] [[some (.str "x")]]).recs.length ∧
    ∀ r' ∈ ((DF.mk [("a", "b")] [[some (.str "x")]]).add_column "a" "b"
        (some (.str "v"))).recs,
      getCell ((DF.mk [("a", "b")] [[some (.str "x")]]).add_column "a" "b"
        (some (.str "v"))).cols r' (("a", "b") : Key) = some (.str "v") :=
  C10_readd_column_clobbers (DF.mk [("a", "b")] [[some (.str "x")]]) "a" "b"
    (some (.str "v")) (by unfold DF.WF; decide) (by decide)

/-- C8 (counterexample): `add_column` itself does not normalize an
empty-string default — calling it directly with default `""` stores the empty
string, a present value, not absent. -/
theorem C8_empty_default_counterexample :
    getCell ((DF.mk [("a", "b")] [[some (.str "x")]]).add_column "c" "d"
        (some (.str ""))).cols
      (((DF.mk [("a", "b")] [[some (.str "x")]]).add_column "c" "d"
        (some (.str ""))).recs.getLastD [])
      (("c", "d") : Key) = some (.str "") ∧
    getCell ((DF.mk [("a", "b")] [[some (.str "x")]]).add_column "c" "d"
        (some (.str ""))).cols
      (((DF.mk [("a", "b")] [[some (.str "x")]]).add_column "c" "d"
        (some (.str ""))).recs.getLastD [])
      (("c", "d") : Key) ≠ none := by decide

/-- C8 (amended): the empty-input normalization lives in
`add_column_interactive`, not in `add_column`: an empty prompted default is
converted to `None` (`default or None`) before `add_column` is called, so the
interactive path with empty default input stores absent on every record of the
new column; `add_column` called directly stores the empty string verbatim. -/
theorem C8_empty_default_normalization (df : DF) (cat sub : String)
    (hwf : df.WF) (hfresh : ((cat, sub) : Key) ∉ df.cols) :
    df.add_column_interactive cat sub "" = df.add_column cat sub none ∧
    ∀ r' ∈ (df.add_column_interactive cat sub "").recs,
      getCell (df.add_column_interactive cat sub "").cols r' ((cat, sub) : Key)
        = none :=
  ⟨rfl, getCell_add_column_fresh hwf hfresh⟩

/-- Witness for C8 (amended): interactive add-column with empty default input
on a one-record table stores absent. -/
theorem C8_empty_default_normalization_witness :
    (DF.mk [("a", "b")] [[some (.str "x")]]).add_column_interactive "c" "d" ""
        = (DF.mk [("a", "b")] [[some (.str "x")]]).add_column "c" "d" none ∧
    ∀ r' ∈ ((DF.mk [("a", "b")] [[some (.str "x")]]).add_column_interactive
        "c" "d" "").recs,
      getCell ((DF.mk [("a", "b")] [[some (.str "x")]]).add_column_interactive
        "c" "d" "").cols r' (("c", "d") : Key) = none :=
  C8_empty_default_normalization (DF.mk [("a", "b")] [[some (.str "x")]])
    "c" "d" (by unfold DF.WF; decide) (by decide)

/-- The spec's matching predicate, word for word (P3): a record matches iff its
value at the column equals the target under exact scalar equality — the cell
holds exactly the string `v`; absent cells (and any non-string cell, since no
coercion is allowed) match nothing. -/
def specExactMatch (cell : Cell) (v : String) : Bool := cell == some (.str v)

/-- The spec's filter, word for word: on a known column, exactly the records
whose value equals the target under exact scalar equality, in original order;
on an unknown column, the column-not-found outcome. To be compared with
`DF.filter`, the embedding of the code. -/
def filterSpec (df : DF) (cat sub value : String) :
    Except DBError (List (List Cell)) :=
  if ((cat, sub) : Key) ∈ df.cols then
    .ok (df.recs.filter (fun r => specExactMatch (getCell df.cols r (cat, sub)) value))
  else .error .columnNotFound

/-- The spec's matching predicate amended by what the code forces: exact string
equality for string cells, no match for absent or integer cells — but a
datetime cell matches when the target string parses to its date, because
pandas coerces strings inside datetime comparisons. -/
def specAmendedMatch (cell : Cell) (v : String) : Bool :=
  cell == some (.str v) ||
    (match cell with
     | some (.date d) => parseDate v == some d
     | _ => false)

theorem cellEq_eq_specAmendedMatch (cell : Cell) (v : String) :
    cellEq cell v = specAmendedMatch cell v := by
  cases cell with
  | none => rfl
  | some w =>
    cases w with
    | str s =>
      simp [cellEq, specAmendedMatch]
    | int n =>
      simp [cellEq, specAmendedMatch]
    | date d =>
      simp [cellEq, specAmendedMatch]

/-- C2 (counterexample): on the seed table, filtering the datetime birth-date
column by the string "1990-05-20" does not behave as exact no-coercion
equality: the code's filter returns the coerced match while the spec's
word-for-word filter returns no record. -/
theorem C2_filter_exactness_counterexample :
    (load_default_data 20000).filter "Персональные данные" "Дата рождения"
        "1990-05-20" ≠
      filterSpec (load_default_data 20000) "Персональные данные" "Дата рождения"
        "1990-05-20" := by decide

/-- C2 (amended): on every known column, `filter` returns, in original record
order, exactly the records whose cell at the key matches the target under the
amended predicate: exact string equality for string cells (no substring match,
no case folding), absent and integer cells never match any target — including
the empty string — and, the amendment the code forces, a datetime cell matches
exactly when the target string parses to its date (pandas coerces comparison
strings on the datetime birth-date column). -/
theorem C2_filter_exactness (df : DF) (cat sub v : String)
    (hmem : ((cat, sub) : Key) ∈ df.cols) :
    df.filter cat sub v =
      .ok (df.recs.filter (fun r =>
        specAmendedMatch (getCell df.cols r ((cat, sub) : Key)) v)) ∧
    (∀ w : String, specAmendedMatch none w = false) := by
  constructor
  · simp only [DF.filter, if_pos hmem]
    congr 1
    apply List.filter_congr
    intro r _
    rw [cellEq_eq_specAmendedMatch]
  · intro w
    rfl

/-- Witness for C2 (amended): Scenario B — filtering the seed table's combat
unit column by "Первый батальон". -/
theorem C2_filter_exactness_witness :
    (load_default_data 20000).filter "Служба" "Боевая часть" "Первый батальон" =
      .ok ((load_default_data 20000).recs.filter (fun r =>
        specAmendedMatch
          (getCell (load_default_data 20000).cols r
            (("Служба", "Боевая часть") : Key)) "Первый батальон")) ∧
    (∀ w : String, specAmendedMatch none w = false) :=
  C2_filter_exactness (load_default_data 20000) "Служба" "Боевая часть"
    "Первый батальон" (by decide)

/-- C4 (unknown-column failure): filtering or aggregating on a key that is not
in the current column set yields the `ColumnNotFound` outcome, which is
observably distinct from any successful (possibly empty) result. -/
theorem C4_unknown_column (df : DF) (c s v : String)
    (hmem : ((c, s) : Key) ∉ df.cols) :
    df.filter c s v = .error .columnNotFound ∧
    df.count_by_column c s = .error .columnNotFound ∧
    (∀ l, df.filter c s v ≠ .ok l) ∧
    (∀ g, df.count_by_column c s ≠ .ok g) := by
  have h1 : df.filter c s v = .error .columnNotFound := by
    simp only [DF.filter, if_neg hmem]
  have h2 : df.count_by_column c s = .error .columnNotFound := by
    simp only [DF.count_by_column, if_neg hmem]
  refine ⟨h1, h2, ?_, ?_⟩
  · intro l h
    rw [h1] at h
    cases h
  · intro g h
    rw [h2] at h
    cases h

/-- Witness for C4: Scenario C — filtering the seed table by the never-added
key ("Не", "Существует"). -/
theorem C4_unknown_column_witness :
    (load_default_data 20000).filter "Не" "Существует" "x"
        = .error .columnNotFound ∧
    (load_default_data 20000).count_by_column "Не" "Существует"
        = .error .columnNotFound ∧
    (∀ l, (load_default_data 20000).filter "Не" "Существует" "x" ≠ .ok l) ∧
    (∀ g, (load_default_data 20000).count_by_column "Не" "Существует" ≠ .ok g) :=
  C4_unknown_column (load_default_data 20000) "Не" "Существует" "x" (by decide)

/-- C5 (failure atomicity): an unknown-column filter or aggregate request
returns the typed `ColumnNotFound` failure and leaves the table exactly as it
was; more generally both queries are total functions that never change the
table (the method bodies only read `self.df`), so no request faults or
partially mutates state. -/
theorem C5_failure_atomicity (df : DF) (c s v : String)
    (hmem : ((c, s) : Key) ∉ df.cols) :
    df.filter_run c s v = (df, .error .columnNotFound) ∧
    df.plot_run c s = (df, .error .columnNotFound) ∧
    (∀ c' s' v', (df.filter_run c' s' v').1 = df) ∧
    (∀ c' s', (df.plot_run c' s').1 = df) := by
  refine ⟨?_, ?_, ?_, ?_⟩
  · simp only [DF.filter_run, if_neg hmem]
  · simp only [DF.plot_run, if_neg hmem]
  · intro c' s' v'
    simp only [DF.filter_run]
    split <;> rfl
  · intro c' s'
    simp only [DF.plot_run]
    split <;> rfl

/-- Witness for C5: the unknown-column request of Scenario C leaves the seed
table unchanged and fails with the typed outcome. -/
theorem C5_failure_atomicity_witness :
    (load_default_data 20000).filter_run "Не" "Существует" "x"
        = (load_default_data 20000, .error .columnNotFound) ∧
    (load_default_data 20000).plot_run "Не" "Существует"
        = (load_default_data 20000, .error .columnNotFound) ∧
    (∀ c' s' v', ((load_default_data 20000).filter_run c' s' v').1
        = load_default_data 20000) ∧
    (∀ c' s', ((load_default_data 20000).plot_run c' s').1
        = load_default_data 20000) :=
  C5_failure_atomicity (load_default_data 20000) "Не" "Существует" "x" (by decide)

/-- C3 (aggregate ordering): on a known column, `count_by_column` returns one
group per distinct non-absent value with its occurrence count — absent cells
are excluded and never form a group — sorted by descending count; restricted
to any one count, the groups appear exactly in first-appearance order, so ties
are broken by earliest first appearance in record order. -/
theorem C3_aggregate_ordering (df : DF) (c s : String)
    (hmem : ((c, s) : Key) ∈ df.cols) :
    df.count_by_column c s = .ok (value_counts (df.colCells ((c, s) : Key))) ∧
    List.Perm (value_counts (df.colCells ((c, s) : Key)))
      ((uniqueValues (df.colCells ((c, s) : Key))).map
        (fun v => (v, (df.colCells ((c, s) : Key)).count (some v)))) ∧
    (value_counts (df.colCells ((c, s) : Key))).Pairwise (fun a b => b.2 ≤ a.2) ∧
    (∀ n : Nat, (value_counts (df.colCells ((c, s) : Key))).filter
        (fun q => q.2 == n) =
      ((uniqueValues (df.colCells ((c, s) : Key))).map
        (fun v => (v, (df.colCells ((c, s) : Key)).count (some v)))).filter
        (fun q => q.2 == n)) ∧
    (∀ p ∈ value_counts (df.colCells ((c, s) : Key)),
      some p.1 ∈ df.colCells ((c, s) : Key)) := by
  refine ⟨?_, sortDesc_perm _, sortDesc_sorted _, fun n => filter_sortDesc _ n, ?_⟩
  · simp only [DF.count_by_column, if_pos hmem]
  · intro p hp
    have hp' : p ∈ sortDesc ((uniqueValues (df.colCells ((c, s) : Key))).map
        (fun v => (v, (df.colCells ((c, s) : Key)).count (some v)))) := hp
    rcases List.mem_map.mp ((sortDesc_perm _).mem_iff.mp hp') with ⟨v, hv, rfl⟩
    exact (mem_uniqueValues _ v).mp hv

/-- Witness for C3: Scenario A — counting the seed table's mortgage column. -/
theorem C3_aggregate_ordering_witness :
    (load_default_data 20000).count_by_column "Финансы" "Ипотека"
        = .ok (value_counts ((load_default_data 20000).colCells
            (("Финансы", "Ипотека") : Key))) ∧
    List.Perm (value_counts ((load_default_data 20000).colCells
        (("Финансы", "Ипотека") : Key)))
      ((uniqueValues ((load_default_data 20000).colCells
          (("Финансы", "Ипотека") : Key))).map
        (fun v => (v, ((load_default_data 20000).colCells
            (("Финансы", "Ипотека") : Key)).count (some v)))) ∧
    (value_counts ((load_default_data 20000).colCells
        (("Финансы", "Ипотека") : Key))).Pairwise (fun a b => b.2 ≤ a.2) ∧
    (∀ n : Nat, (value_counts ((load_default_data 20000).colCells
        (("Финансы", "Ипотека") : Key))).filter (fun q => q.2 == n) =
      ((uniqueValues ((load_default_data 20000).colCells
          (("Финансы", "Ипотека") : Key))).map
        (fun v => (v, ((load_default_data 20000).colCells
            (("Финансы", "Ипотека") : Key)).count (some v)))).filter
        (fun q => q.2 == n)) ∧
    (∀ p ∈ value_counts ((load_default_data 20000).colCells
        (("Финансы", "Ипотека") : Key)),
      some p.1 ∈ (load_default_data 20000).colCells
        (("Финансы", "Ипотека") : Key)) :=
  C3_aggregate_ordering (load_default_data 20000) "Финансы" "Ипотека" (by decide)

/-- In a duplicate-free list of keys, a present key is counted exactly once. -/
theorem count_eq_one_of_nodup_mem {l : List Key} {a : Key} (d : l.Nodup)
    (h : a ∈ l) : l.count a = 1 := by
  induction l with
  | nil => cases h
  | cons b t ih =>
    rcases List.nodup_cons.mp d with ⟨hb, ht⟩
    rcases List.mem_cons.mp h with rfl | h'
    · rw [List.count_cons_self, List.count_eq_zero.mpr hb]
    · rw [List.count_cons_of_ne (by rintro rfl; exact hb h') t, ih ht h']

/-- Columns after a sequence of `add_column` calls whose keys are distinct and
all fresh: each key is appended at the end, in call order. -/
theorem foldl_add_column_cols (calls : List (Key × Cell)) :
    ∀ df : DF, (∀ k ∈ calls.map Prod.fst, k ∉ df.cols) →
      (calls.map Prod.fst).Nodup →
      (calls.foldl (fun d kc => d.add_column kc.1.1 kc.1.2 kc.2) df).cols
        = df.cols ++ calls.map Prod.fst := by
  induction calls with
  | nil =>
    intro df _ _
    simp
  | cons kc t ih =>
    intro df hfresh hnodup
    have hk : kc.1 ∉ df.cols := hfresh kc.1 (by simp)
    have hcols1 : (df.add_column kc.1.1 kc.1.2 kc.2).cols = df.cols ++ [kc.1] := by
      simp only [DF.add_column, if_neg hk]
    have hhead : kc.1 ∉ t.map Prod.fst ∧ (t.map Prod.fst).Nodup :=
      List.nodup_cons.mp (by simpa using hnodup)
    have hfresh' : ∀ k ∈ t.map Prod.fst,
        k ∉ (df.add_column kc.1.1 kc.1.2 kc.2).cols := by
      intro k hkt
      rw [hcols1]
      intro hmemk
      rcases List.mem_append.mp hmemk with h1 | h1
      · exact hfresh k (by simp [hkt]) h1
      · rw [List.mem_singleton] at h1
        exact hhead.1 (h1 ▸ hkt)
    rw [List.foldl_cons, ih (df.add_column kc.1.1 kc.1.2 kc.2) hfresh' hhead.2,
      hcols1]
    simp

/-- C6 (counterexample): the claim quantifies over every starting table state,
but when a (pairwise-distinct) key already exists in the table, `add_column`
overwrites it in place instead of appending it, so the resulting column order
is not the prior columns followed by the call keys. -/
theorem C6_schema_append_only_counterexample :
    (([((("a", "b") : Key), (none : Cell))]).foldl
        (fun d kc => d.add_column kc.1.1 kc.1.2 kc.2)
        (DF.mk [("a", "b")] [])).cols = [("a", "b")] ∧
    (([((("a", "b") : Key), (none : Cell))]).foldl
        (fun d kc => d.add_column kc.1.1 kc.1.2 kc.2)
        (DF.mk [("a", "b")] [])).cols
      ≠ (DF.mk [("a", "b")] []).cols ++
          ([((("a", "b") : Key), (none : Cell))]).map Prod.fst := by decide

/-- C6 (amended): for every sequence of `add_column` calls whose keys are
pairwise distinct and fresh (not already in the table), the resulting column
order is the prior columns followed by the new keys in call order, and every
call key is present exactly once in the resulting column set. -/
theorem C6_schema_append_only (df : DF) (calls : List (Key × Cell))
    (hnodup : (calls.map Prod.fst).Nodup)
    (hfresh : ∀ k ∈ calls.map Prod.fst, k ∉ df.cols) :
    (calls.foldl (fun d kc => d.add_column kc.1.1 kc.1.2 kc.2) df).cols
        = df.cols ++ calls.map Prod.fst ∧
    ∀ k ∈ calls.map Prod.fst,
      ((calls.foldl (fun d kc => d.add_column kc.1.1 kc.1.2 kc.2) df).cols).count k
        = 1 := by
  have hcols := foldl_add_column_cols calls df hfresh hnodup
  refine ⟨hcols, ?_⟩
  intro k hk
  rw [hcols, List.count_append]
  rw [List.count_eq_zero.mpr (fun h => hfresh k hk h),
    count_eq_one_of_nodup_mem hnodup hk]

/-- Witness for C6 (amended): two fresh distinct columns added to a
one-column table land at the end, in call order, each once. -/
theorem C6_schema_append_only_witness :
    (([((("c", "d") : Key), (none : Cell)),
        ((("e", "f") : Key), some (.str "v"))]).foldl
        (fun d kc => d.add_column kc.1.1 kc.1.2 kc.2)
        (DF.mk [("a", "b")] [])).cols
      = (DF.mk [("a", "b")] []).cols ++
          ([((("c", "d") : Key), (none : Cell)),
            ((("e", "f") : Key), some (.str "v"))]).map Prod.fst ∧
    ∀ k ∈ ([((("c", "d") : Key), (none : Cell)),
        ((("e", "f") : Key), some (.str "v"))]).map Prod.fst,
      ((([((("c", "d") : Key), (none : Cell)),
          ((("e", "f") : Key), some (.str "v"))]).foldl
          (fun d kc => d.add_column kc.1.1 kc.1.2 kc.2)
          (DF.mk [("a", "b")] [])).cols).count k = 1 :=
  C6_schema_append_only (DF.mk [("a", "b")] [])
    [((("c", "d") : Key), (none : Cell)), ((("e", "f") : Key), some (.str "v"))]
    (by decide) (by decide)

/-- C7 (counterexample): the seed table does not have 5 columns — the three
seed dicts contribute 5 keys and `load_default_data` appends the derived age
column as a sixth. -/
theorem C7_seed_shape_counterexample :
    ¬ ((load_default_data 20000).recs.length = 3 ∧
       (load_default_data 20000).cols.length = 5) := by decide

/-- C7 (amended): for every load day, the table created at session start has
exactly 3 records and exactly 6 columns; the last column is the derived age
column, whose cell in every record is derived at load time from that record's
birth-date cell. -/
theorem C7_seed_shape (today : Int) :
    (load_default_data today).recs.length = 3 ∧
    (load_default_data today).cols.length = 6 ∧
    (load_default_data today).cols.getLast? = some ageKey ∧
    ∀ r ∈ (load_default_data today).recs,
      getCell (load_default_data today).cols r ageKey =
        ageCell today (getCell (load_default_data today).cols r birthKey) := by
  refine ⟨rfl, rfl, rfl, ?_⟩
  intro r hr
  have hr' : r ∈ (seedRows.map (mapAtKey seedCols birthKey toDatetimeCell)).map
      (fun r => r ++ [ageCell today (getCell seedCols r birthKey)]) := hr
  rcases List.mem_map.mp hr' with ⟨r₁, hr₁, rfl⟩
  rcases List.mem_map.mp hr₁ with ⟨r₀, hr₀, rfl⟩
  have hr₀' : r₀ ∈ ([[some (.str "Первый батальон"), some (.str "Иванов Иван Иванович"),
      some (.str "Сержант"), some (.str "1990-05-20"), some (.str "Да")],
     [some (.str "Второй батальон"), some (.str "Петров Петр Петрович"),
      some (.str "Лейтенант"), some (.str "1988-11-02"), some (.str "Нет")],
     [some (.str "Первый батальон"), some (.str "Сидоров Сидор Сидорович"),
      some (.str "Капитан"), some (.str "1985-03-15"), some (.str "Да")]] :
      List (List Cell)) := hr₀
  simp only [List.mem_cons, List.not_mem_nil, or_false] at hr₀'
  rcases hr₀' with rfl | rfl | rfl
  · rfl
  · rfl
  · rfl

/-- C9 (add_record extends the schema): calling `add_record` with a dict that
contains keys not in the current column set appends exactly those keys (in the
dict's order) to the column set — it does not reject or drop them — each
present once afterwards when the table's columns were duplicate-free; every
pre-existing record (the padded copies preceding the new record) reads absent
on every key that was not a column before the call. -/
theorem C9_add_record_extends (df : DF) (data : List (Key × Cell)) (hwf : df.WF)
    (hnodup : (data.map Prod.fst).Nodup) :
    (df.add_record data).cols
        = df.cols ++ (data.map Prod.fst).filter (fun k => decide (k ∉ df.cols)) ∧
    (∀ k ∈ data.map Prod.fst, k ∈ (df.add_record data).cols) ∧
    (df.cols.Nodup → (df.add_record data).cols.Nodup) ∧
    (df.add_record data).recs
        = df.recs.map (fun r => r ++
            ((data.map Prod.fst).filter (fun k => decide (k ∉ df.cols))).map
              (fun _ => (none : Cell)))
          ++ [((df.add_record data).cols).map (fun k => lookupCell data k)] ∧
    (∀ r ∈ df.recs, ∀ k : Key, k ∉ df.cols →
      getCell (df.add_record data).cols
        (r ++ ((data.map Prod.fst).filter (fun k => decide (k ∉ df.cols))).map
          (fun _ => (none : Cell))) k = none) := by
  refine ⟨rfl, ?_, ?_, rfl, ?_⟩
  · intro k hk
    show k ∈ df.cols ++ (data.map Prod.fst).filter (fun k => decide (k ∉ df.cols))
    by_cases hkc : k ∈ df.cols
    · exact List.mem_append_left _ hkc
    · exact List.mem_append_right _ (List.mem_filter.mpr ⟨hk, by simpa using hkc⟩)
  · intro hcolsnodup
    show (df.cols ++ (data.map Prod.fst).filter
        (fun k => decide (k ∉ df.cols))).Nodup
    refine List.Nodup.append hcolsnodup (hnodup.filter _) ?_
    intro k hkc hkf
    exact (by simpa using (List.mem_filter.mp hkf).2 : k ∉ df.cols) hkc
  · intro r hr k hkc
    show getCell (df.cols ++ (data.map Prod.fst).filter
        (fun k => decide (k ∉ df.cols))) _ k = none
    rw [getCell_append (hwf r hr) hkc]
    by_cases hkn : k ∈ (data.map Prod.fst).filter (fun k => decide (k ∉ df.cols))
    · exact getCell_map_self _ hkn
    · exact getCell_of_not_mem hkn

/-- Witness for C9: the demo-style record that supplies the known column and a
brand-new key ("Статус", "Контракт"). -/
theorem C9_add_record_extends_witness :
    ((DF.mk [("a", "b")] [[some (.str "x")]]).add_record
        [(("a", "b"), some (.str "y")), (("Статус", "Контракт"), some (.str "Нет"))]).cols
        = (DF.mk [("a", "b")] [[some (.str "x")]]).cols ++
            (([(("a", "b"), some (.str "y")),
              (("Статус", "Контракт"), some (.str "Нет"))] :
                List (Key × Cell)).map Prod.fst).filter
              (fun k => decide (k ∉ (DF.mk [("a", "b")] [[some (.str "x")]]).cols)) ∧
    (∀ k ∈ ([(("a", "b"), some (.str "y")),
        (("Статус", "Контракт"), some (.str "Нет"))] :
          List (Key × Cell)).map Prod.fst,
      k ∈ ((DF.mk [("a", "b")] [[some (.str "x")]]).add_record
        [(("a", "b"), some (.str "y")),
          (("Статус", "Контракт"), some (.str "Нет"))]).cols) ∧
    ((DF.mk [("a", "b")] [[some (.str "x")]]).cols.Nodup →
      ((DF.mk [("a", "b")] [[some (.str "x")]]).add_record
        [(("a", "b"), some (.str "y")),
          (("Статус", "Контракт"), some (.str "Нет"))]).cols.Nodup) ∧
    ((DF.mk [("a", "b")] [[some (.str "x")]]).add_record
        [(("a", "b"), some (.str "y")),
          (("Статус", "Контракт"), some (.str "Нет"))]).recs
        = (DF.mk [("a", "b")] [[some (.str "x")]]).recs.map (fun r => r ++
            ((([(("a", "b"), some (.str "y")),
              (("Статус", "Контракт"), some (.str "Нет"))] :
                List (Key × Cell)).map Prod.fst).filter
              (fun k => decide (k ∉ (DF.mk [("a", "b")]
                [[some (.str "x")]]).cols))).map (fun _ => (none : Cell)))
          ++ [(((DF.mk [("a", "b")] [[some (.str "x")]]).add_record
              [(("a", "b"), some (.str "y")),
                (("Статус", "Контракт"), some (.str "Нет"))]).cols).map
              (fun k => lookupCell [(("a", "b"), some (.str "y")),
                (("Статус", "Контракт"), some (.str "Нет"))] k)] ∧
    (∀ r ∈ (DF.mk [("a", "b")] [[some (.str "x")]]).recs, ∀ k : Key,
      k ∉ (DF.mk [("a", "b")] [[some (.str "x")]]).cols →
      getCell ((DF.mk [("a", "b")] [[some (.str "x")]]).add_record
          [(("a", "b"), some (.str "y")),
            (("Статус", "Контракт"), some (.str "Нет"))]).cols
        (r ++ ((([(("a", "b"), some (.str "y")),
            (("Статус", "Контракт"), some (.str "Нет"))] :
              List (Key × Cell)).map Prod.fst).filter
            (fun k => decide (k ∉ (DF.mk [("a", "b")]
              [[some (.str "x")]]).cols))).map (fun _ => (none : Cell))) k
        = none) :=
  C9_add_record_extends (DF.mk [("a", "b")] [[some (.str "x")]])
    [(("a", "b"), some (.str "y")), (("Статус", "Контракт"), some (.str "Нет"))]
    (by unfold DF.WF; decide) (by decide)

end MilDB
